/-
Verification development for the deterministic password generator of the
`passw` repository (src/utils/pass-generator.ts).

The generator pipeline (normalisation, salt derivation, key stretching,
character mapping, deterministic Fisher-Yates shuffle, orchestration) is
embedded shallowly below.  The host Web Crypto primitives (SHA-256, HMAC,
PBKDF2 deriveBits) are not part of the repository; following the design's
capability interface they are modelled as a record of deterministic
functions over byte lists, and every theorem about the pipeline is proved
for an arbitrary such record.  A concrete sample record is used to
evaluate the pipeline on concrete inputs.

Strings are modelled as Lean `String`/`List Char`; byte sequences as
`List Nat` of values below 256 (the code's `b & 0xff` becomes `% 256`).
-/
import Mathlib

namespace Passw

/-- Byte encoding of a character, as produced by `TextEncoder.encode`
(UTF-8). -/
def utf8Char (c : Char) : List Nat :=
  let n := c.toNat
  if n < 0x80 then [n]
  else if n < 0x800 then [0xc0 + n / 64, 0x80 + n % 64]
  else if n < 0x10000 then
    [0xe0 + n / 4096, 0x80 + (n / 64) % 64, 0x80 + n % 64]
  else
    [0xf0 + n / 262144, 0x80 + (n / 4096) % 64, 0x80 + (n / 64) % 64,
     0x80 + n % 64]

/-- `enc.encode(s)`: UTF-8 bytes of a string. -/
def strBytes (s : String) : List Nat :=
  (s.data.map utf8Char).flatten

/-- The white-space predicate of ECMAScript `String.prototype.trim`
(WhiteSpace and LineTerminator code points). -/
def isJsWhitespace (c : Char) : Bool :=
  let n := c.toNat
  n = 0x09 || n = 0x0a || n = 0x0b || n = 0x0c || n = 0x0d || n = 0x20 ||
  n = 0xa0 || n = 0x1680 || (0x2000 ≤ n && n ≤ 0x200a) || n = 0x2028 ||
  n = 0x2029 || n = 0x202f || n = 0x205f || n = 0x3000 || n = 0xfeff

/-- `.trim()` on a list of characters: drop white space from both ends. -/
def jsTrimList (l : List Char) : List Char :=
  ((l.dropWhile isJsWhitespace).reverse.dropWhile isJsWhitespace).reverse

/-- ECMAScript `String.prototype.trim`. -/
def jsTrim (s : String) : String :=
  (jsTrimList s.data).asString

/-- Per-character table of Unicode NFKC normalisation
(`String.prototype.normalize("NFKC")`), on the fragment of Unicode this
development evaluates: characters with neither a compatibility
decomposition nor combining behaviour (all ASCII among them) map to
themselves; the compatibility ligature U+FB01 (LATIN SMALL LIGATURE FI)
decomposes to "fi". -/
def nfkcChar (c : Char) : List Char :=
  if c.toNat = 0xfb01 then [Char.ofNat 0x66, Char.ofNat 0x69] else [c]

/-- `s.normalize("NFKC")` on the modelled fragment of Unicode. -/
def nfkc (s : String) : String :=
  ((s.data.map nfkcChar).flatten).asString

/-- Per-character table of Unicode NFC normalisation (canonical
composition), on the same fragment: none of these characters has a
canonical decomposition, so canonical composition leaves each of them
unchanged; in particular U+FB01 is NOT decomposed (its decomposition is a
compatibility one). -/
def nfcChar (c : Char) : List Char := [c]

/-- `s.normalize("NFC")` on the modelled fragment of Unicode. -/
def nfc (s : String) : String :=
  ((s.data.map nfcChar).flatten).asString

/-- `normText` from the source: `s.normalize("NFKC").trim()`. -/
def normText (s : String) : String :=
  jsTrim (nfkc s)

/-- `bytesToInt` from the source: `b & 0xff`. -/
def bytesToInt (b : Nat) : Nat := b % 256

/-- The host cryptographic capability used by the code
(`crypto.subtle`): a 256-bit hash, an HMAC over it, and PBKDF2
`deriveBits`.  Each is a deterministic function; `deriveBits` takes the
raw password bytes, the salt, the iteration count and the requested
number of bits. -/
structure CryptoPrims where
  sha256 : List Nat → List Nat
  hmacSha256 : List Nat → List Nat → List Nat
  deriveBits : List Nat → List Nat → Nat → Nat → List Nat

/-- `pbkdf2` from the source: derive bits from the NFKC-normalised,
trimmed, UTF-8 encoded master phrase. -/
def pbkdf2 (prims : CryptoPrims) (master : String) (salt : List Nat)
    (iterations : Nat) (bits : Nat) : List Nat :=
  prims.deriveBits (strBytes (normText master)) salt iterations bits

-- Character policy -----------------------------------------------------

/-- Lowercase class. -/
def LOWER : List Char := "abcdefghijklmnopqrstuvwxyz".data

/-- Uppercase class. -/
def UPPER : List Char := "ABCDEFGHIJKLMNOPQRSTUVWXYZ".data

/-- Digit class. -/
def DIGITS : List Char := "0123456789".data

/-- Symbol class; the TypeScript literal is
`"!@#$%^&*()-_=+[]{};:,.?/\\|~"` (braces written with escapes here, and
`\\` denotes the single backslash character, as in the source). -/
def SYMBOLS : List Char := "!@#$%^&*()-_=+[]\x7b\x7d;:,.?/\\|~".data

/-- `ALLSETS`. -/
def ALLSETS : List (List Char) := [LOWER, UPPER, DIGITS, SYMBOLS]

/-- `COMBINED`: the concatenation of the four classes. -/
def COMBINED : List Char := ALLSETS.flatten

-- Salt derivation ------------------------------------------------------

/-- `deterministicSalt` from the source: SHA-256 of
`"pwgen-salt-v1|" + normText(context) + "|" + normText(String(number))`,
truncated to 16 bytes.  The rotation number is an integer; `String(n)`
for an integer is its decimal representation, i.e. `toString`. -/
def deterministicSalt (prims : CryptoPrims) (context : String)
    (number : Int) : List Nat :=
  (prims.sha256 (strBytes
    ("pwgen-salt-v1" ++ "|" ++ normText context ++ "|" ++
      normText (toString number)))).take 16

-- Deterministic shuffle ------------------------------------------------

/-- One JS array swap `tmp = arr[i]; arr[i] = arr[k]; arr[k] = tmp`. -/
def listSwap (l : List Char) (i k : Nat) : List Char :=
  (l.set i (l.getD k ' ')).set k (l.getD i ' ')

/-- The Fisher-Yates loop of `deterministicShuffle`: `i` counts down to
1; `prf` is the current PRF block and `j` the index of the next unused
byte; when the block is exhausted it is extended by
`hmac(key, prf ++ "shuffle-next")`. -/
def shuffleLoop (hmacF : List Nat → List Nat → List Nat)
    (key : List Nat) : List Char → List Nat → Nat → Nat → List Char
  | arr, _, _, 0 => arr
  | arr, prf, j, i + 1 =>
    let pj : List Nat × Nat :=
      if prf.length ≤ j then (hmacF key (prf ++ strBytes "shuffle-next"), 0)
      else (prf, j)
    let k := pj.1.getD pj.2 0 % (i + 2)
    shuffleLoop hmacF key (listSwap arr (i + 1) k) pj.1 (pj.2 + 1) i

/-- `deterministicShuffle` from the source (the in-place mutation is
modelled by returning the permuted list): seed the PRF stream with
`hmac(keyBytes, "shuffle-v1")` and run Fisher-Yates from
`arr.length - 1` down to 1. -/
def deterministicShuffle (hmacF : List Nat → List Nat → List Nat)
    (key : List Nat) (arr : List Char) : List Char :=
  shuffleLoop hmacF key arr (hmacF key (strBytes "shuffle-v1")) 0
    (arr.length - 1)

-- Mapping bytes to the password ----------------------------------------

/-- The key byte selected for output position `i`:
`keyBytes[i % keyBytes.length]`. -/
def keyByteAt (keyBytes : List Nat) (i : Nat) : Nat :=
  keyBytes.getD (i % keyBytes.length) 0

/-- The character list built by `mapBytesToPassword`: one character from
each of the four classes (positions `0..3`), then characters from the
combined alphabet for positions `4..length-1`. -/
def mapChars (keyBytes : List Nat) (length : Nat) : List Char :=
  ((List.range ALLSETS.length).map (fun i =>
      let set := ALLSETS.getD i []
      set.getD (bytesToInt (keyByteAt keyBytes i) % set.length) ' ')) ++
  ((List.range' ALLSETS.length (length - ALLSETS.length)).map (fun i =>
      COMBINED.getD (bytesToInt (keyByteAt keyBytes i) % COMBINED.length) ' '))

/-- The two `throw new Error(...)` sites of the generator, classified by
the design's error taxonomy (the code raises a generic `Error`; the
length check is the ValidationError, the iteration check the
ConfigurationError). -/
inductive GenError where
  | validationError : String → GenError
  | configurationError : String → GenError
deriving DecidableEq

/-- `mapBytesToPassword` from the source. -/
def mapBytesToPassword (keyBytes : List Nat) (length : Nat) :
    Except GenError String :=
  if length < 8 then .error (.validationError "length must be at least 8")
  else .ok (mapChars keyBytes length).asString

-- Public API -----------------------------------------------------------

/-- `GenerateOptions`: all fields optional, as in the source. -/
structure GenerateOptions where
  context : Option String
  length : Option Nat
  iterations : Option Nat

/-- `generatePassword` from the source: apply the defaults
(`context ?? ""`, `length ?? 20`, `iterations ?? 600000`), reject
`iterations < 100000`, derive the salt and the key bytes, map them to
characters, shuffle deterministically, and return the first `length`
characters. -/
def generatePassword (prims : CryptoPrims) (masterPhrase : String)
    (number : Int) (options : GenerateOptions) : Except GenError String :=
  let context := options.context.getD ""
  let length := options.length.getD 20
  let iterations := options.iterations.getD 600000
  if iterations < 100000 then
    .error (.configurationError "iterations must be >= 100,000")
  else
    let salt := deterministicSalt prims context number
    let keyBytes := pbkdf2 prims masterPhrase salt iterations
      (max 512 (length * 16))
    match mapBytesToPassword keyBytes length with
    | .error e => .error e
    | .ok initial =>
      .ok ((deterministicShuffle prims.hmacSha256 keyBytes
        initial.data).take length).asString

/-- The pipeline stages of `generatePassword`, in the order the source
awaits them. -/
inductive Stage where
  | saltDerivation : Stage
  | keyDerivation : Stage
  | mapping : Stage
  | shuffling : Stage
deriving DecidableEq

/-- `generatePassword` instrumented with the list of pipeline stages that
actually begin executing during the call, in order.  The source awaits
`deterministicSalt`, then `pbkdf2`, then calls `mapBytesToPassword`
(whose length check may throw), then awaits `deterministicShuffle`. -/
def generatePasswordTraced (prims : CryptoPrims) (masterPhrase : String)
    (number : Int) (options : GenerateOptions) :
    Except GenError String × List Stage :=
  let context := options.context.getD ""
  let length := options.length.getD 20
  let iterations := options.iterations.getD 600000
  if iterations < 100000 then
    (.error (.configurationError "iterations must be >= 100,000"), [])
  else
    let salt := deterministicSalt prims context number
    let keyBytes := pbkdf2 prims masterPhrase salt iterations
      (max 512 (length * 16))
    match mapBytesToPassword keyBytes length with
    | .error e =>
      (.error e, [.saltDerivation, .keyDerivation, .mapping])
    | .ok initial =>
      (.ok ((deterministicShuffle prims.hmacSha256 keyBytes
          initial.data).take length).asString,
       [.saltDerivation, .keyDerivation, .mapping, .shuffling])

/-- A concrete deterministic instance of the host primitive interface,
used to evaluate the pipeline at concrete inputs (the pipeline theorems
hold for every instance). -/
def samplePrims : CryptoPrims where
  sha256 := fun data =>
    (List.range 32).map (fun i =>
      (data.foldl (fun a b => (a * 31 + b) % 251) 7 + i) % 256)
  hmacSha256 := fun key msg =>
    (List.range 32).map (fun i =>
      (key.foldl (fun a b => (a * 33 + b) % 257) 3 +
        msg.foldl (fun a b => (a * 37 + b) % 263) 5 + i) % 256)
  deriveBits := fun pw salt iter bits =>
    (List.range (bits / 8)).map (fun i =>
      (pw.foldl (fun a b => (a * 41 + b) % 269) 11 +
        salt.foldl (fun a b => (a + b) % 256) 0 + iter + i) % 256)

-- Helper lemmas --------------------------------------------------------

theorem asString_data (l : List Char) : (l.asString).data = l := rfl

theorem getD_cons_perm (xs : List Char) :
    ∀ (j : Nat) (x : Char), j < xs.length →
      List.Perm (xs.getD j ' ' :: xs.set j x) (x :: xs) := by
  induction xs with
  | nil => intro j x h; simp at h
  | cons y ys ih =>
    intro j x h
    cases j with
    | zero => simpa using List.Perm.swap x y ys
    | succ j =>
      have hj : j < ys.length := by simpa using h
      refine List.Perm.trans (List.Perm.swap y (ys.getD j ' ') (ys.set j x)) ?_
      exact List.Perm.trans (List.Perm.cons y (ih j x hj)) (List.Perm.swap x y ys)

theorem listSwap_perm :
    ∀ (l : List Char) (i k : Nat), i < l.length → k < l.length →
      List.Perm (listSwap l i k) l := by
  intro l
  induction l with
  | nil => intro i k h; simp at h
  | cons x xs ih =>
    intro i k hi hk
    cases i with
    | zero =>
      cases k with
      | zero => simp [listSwap]
      | succ k =>
        have hk' : k < xs.length := by simpa using hk
        simpa [listSwap] using getD_cons_perm xs k x hk'
    | succ i =>
      cases k with
      | zero =>
        have hi' : i < xs.length := by simpa using hi
        simpa [listSwap] using getD_cons_perm xs i x hi'
      | succ k =>
        have hi' : i < xs.length := by simpa using hi
        have hk' : k < xs.length := by simpa using hk
        simpa [listSwap] using List.Perm.cons x (ih i k hi' hk')

theorem listSwap_length (l : List Char) (i k : Nat) :
    (listSwap l i k).length = l.length := by
  simp [listSwap]

theorem shuffleLoop_perm (hmacF : List Nat → List Nat → List Nat)
    (key : List Nat) :
    ∀ (i : Nat) (arr : List Char) (prf : List Nat) (j : Nat),
      i < arr.length →
      List.Perm (shuffleLoop hmacF key arr prf j i) arr := by
  intro i
  induction i with
  | zero => intro arr prf j _; exact List.Perm.refl arr
  | succ i ih =>
    intro arr prf j h
    have hswap : ∀ k, k < i + 2 →
        List.Perm (listSwap arr (i + 1) k) arr := by
      intro k hk
      exact listSwap_perm arr (i + 1) k h (by omega)
    unfold shuffleLoop
    by_cases hc : prf.length ≤ j
    · simp only [hc, if_pos]
      have h1 : i < (listSwap arr (i + 1)
          ((hmacF key (prf ++ strBytes "shuffle-next")).getD 0 0 % (i + 2))).length := by
        rw [listSwap_length]; omega
      exact (ih _ _ _ h1).trans
        (hswap _ (Nat.mod_lt _ (by omega)))
    · simp only [hc, if_neg, not_false_iff]
      have h1 : i < (listSwap arr (i + 1) (prf.getD j 0 % (i + 2))).length := by
        rw [listSwap_length]; omega
      exact (ih _ _ _ h1).trans (hswap _ (Nat.mod_lt _ (by omega)))

theorem deterministicShuffle_perm (hmacF : List Nat → List Nat → List Nat)
    (key : List Nat) (arr : List Char) :
    List.Perm (deterministicShuffle hmacF key arr) arr := by
  unfold deterministicShuffle
  rcases Nat.eq_zero_or_pos arr.length with h | h
  · have h0 : arr.length - 1 = 0 := by omega
    rw [h0]
    exact List.Perm.refl arr
  · exact shuffleLoop_perm hmacF key (arr.length - 1) arr _ 0 (by omega)

theorem deterministicShuffle_length (hmacF : List Nat → List Nat → List Nat)
    (key : List Nat) (arr : List Char) :
    (deterministicShuffle hmacF key arr).length = arr.length :=
  (deterministicShuffle_perm hmacF key arr).length_eq

theorem mapChars_length (keyBytes : List Nat) (len : Nat) (h : 4 ≤ len) :
    (mapChars keyBytes len).length = len := by
  simp only [mapChars, List.length_append, List.length_map, List.length_range,
    List.length_range']
  simp only [ALLSETS, List.length_cons, List.length_nil]
  omega

theorem getD_mod_mem (l : List Char) (x : Nat) (h : l ≠ []) :
    l.getD (x % l.length) ' ' ∈ l := by
  have hl : 0 < l.length := List.length_pos.mpr h
  have hx : x % l.length < l.length := Nat.mod_lt _ hl
  rw [List.getD_eq_getElem?_getD, List.getElem?_eq_getElem hx]
  exact List.getElem_mem hx

theorem mem_mapChars_of_class (keyBytes : List Nat) (len : Nat)
    (i : Nat) (hi : i < 4) :
    (ALLSETS.getD i []).getD
      (bytesToInt (keyByteAt keyBytes i) % (ALLSETS.getD i []).length) ' '
      ∈ mapChars keyBytes len := by
  unfold mapChars
  refine List.mem_append_left _ (List.mem_map.mpr ⟨i, ?_, rfl⟩)
  have h4 : ALLSETS.length = 4 := rfl
  rw [List.mem_range, h4]
  exact hi

/-- The key bytes derived by `generatePassword` for the given call. -/
def genKeyBytes (prims : CryptoPrims) (m : String) (n : Int) (c : String)
    (len it : Nat) : List Nat :=
  pbkdf2 prims m (deterministicSalt prims c n) it (max 512 (len * 16))

theorem generatePassword_ok_eq (prims : CryptoPrims) (m : String) (n : Int)
    (c : String) (len it : Nat) (h8 : 8 ≤ len) (hit : 100000 ≤ it) :
    generatePassword prims m n ⟨some c, some len, some it⟩ =
      .ok ((deterministicShuffle prims.hmacSha256
        (genKeyBytes prims m n c len it)
        (mapChars (genKeyBytes prims m n c len it) len)).take len).asString := by
  have h1 : ¬ it < 100000 := by omega
  have h2 : ¬ len < 8 := by omega
  simp only [generatePassword, Option.getD_some, h1, if_false,
    mapBytesToPassword, h2, genKeyBytes, asString_data]

theorem generatePassword_len_error (prims : CryptoPrims) (m : String)
    (n : Int) (c : String) (len it : Nat) (h7 : len < 8)
    (hit : 100000 ≤ it) :
    generatePassword prims m n ⟨some c, some len, some it⟩ =
      .error (.validationError "length must be at least 8") := by
  have h1 : ¬ it < 100000 := by omega
  simp only [generatePassword, Option.getD_some, h1, if_false,
    mapBytesToPassword, if_pos h7]

theorem generatePassword_ok_length (prims : CryptoPrims) (m : String)
    (n : Int) (c : String) (len it : Nat) (h8 : 8 ≤ len)
    (hit : 100000 ≤ it) :
    ∃ s, generatePassword prims m n ⟨some c, some len, some it⟩ = .ok s ∧
      s.length = len := by
  refine ⟨_, generatePassword_ok_eq prims m n c len it h8 hit, ?_⟩
  rw [List.length_asString, List.length_take, deterministicShuffle_length,
    mapChars_length _ _ (by omega)]
  omega

theorem mapChars_exists_mem (keyBytes : List Nat) (len : Nat) (i : Nat)
    (hi : i < 4) (hne : ALLSETS.getD i [] ≠ []) :
    ∃ a ∈ mapChars keyBytes len, a ∈ ALLSETS.getD i [] :=
  ⟨_, mem_mapChars_of_class keyBytes len i hi, getD_mod_mem _ _ hne⟩

-- Claim theorems -------------------------------------------------------

/-- C1.  Determinism of generate: for every tuple (masterPhrase,
rotationNumber, context, length, iterations) with length ≥ 8 and
iterations ≥ 100000, any two calls of `generatePassword` with identical
arguments return identical password strings — the function is a pure
function of its declared inputs (and of the fixed host primitives). -/
theorem generatePassword_deterministic (prims : CryptoPrims)
    (m₁ m₂ : String) (n₁ n₂ : Int) (c₁ c₂ : String)
    (len₁ len₂ it₁ it₂ : Nat) (h8 : 8 ≤ len₁) (hit : 100000 ≤ it₁)
    (hm : m₁ = m₂) (hn : n₁ = n₂) (hc : c₁ = c₂) (hl : len₁ = len₂)
    (hi : it₁ = it₂) :
    generatePassword prims m₁ n₁ ⟨some c₁, some len₁, some it₁⟩ =
      generatePassword prims m₂ n₂ ⟨some c₂, some len₂, some it₂⟩ := by
  subst hm; subst hn; subst hc; subst hl; subst hi; rfl

/-- Witness for C1 at a concrete input. -/
theorem generatePassword_deterministic_witness :
    generatePassword samplePrims "abc" 1 ⟨some "ex", some 16, some 100000⟩ =
      generatePassword samplePrims "abc" 1 ⟨some "ex", some 16, some 100000⟩ :=
  generatePassword_deterministic samplePrims "abc" "abc" 1 1 "ex" "ex"
    16 16 100000 100000 (by decide) (by decide) rfl rfl rfl rfl rfl

/-- C2.  Class coverage: every valid call (length ≥ 8,
iterations ≥ 100000) succeeds, and the returned password contains at
least one lowercase letter, one uppercase letter, one digit and one
symbol (by membership, independent of position). -/
theorem generatePassword_class_coverage (prims : CryptoPrims) (m : String)
    (n : Int) (c : String) (len it : Nat) (h8 : 8 ≤ len)
    (hit : 100000 ≤ it) :
    ∃ s, generatePassword prims m n ⟨some c, some len, some it⟩ = .ok s ∧
      (∃ a ∈ s.data, a ∈ LOWER) ∧ (∃ a ∈ s.data, a ∈ UPPER) ∧
      (∃ a ∈ s.data, a ∈ DIGITS) ∧ (∃ a ∈ s.data, a ∈ SYMBOLS) := by
  refine ⟨_, generatePassword_ok_eq prims m n c len it h8 hit, ?_⟩
  have hperm := deterministicShuffle_perm prims.hmacSha256
    (genKeyBytes prims m n c len it)
    (mapChars (genKeyBytes prims m n c len it) len)
  have hlen : (deterministicShuffle prims.hmacSha256
      (genKeyBytes prims m n c len it)
      (mapChars (genKeyBytes prims m n c len it) len)).length = len := by
    rw [deterministicShuffle_length, mapChars_length _ _ (by omega)]
  have htake : (deterministicShuffle prims.hmacSha256
        (genKeyBytes prims m n c len it)
        (mapChars (genKeyBytes prims m n c len it) len)).take len =
      deterministicShuffle prims.hmacSha256
        (genKeyBytes prims m n c len it)
        (mapChars (genKeyBytes prims m n c len it) len) :=
    List.take_of_length_le (le_of_eq hlen)
  rw [asString_data, htake]
  have cover : ∀ i, i < 4 → ALLSETS.getD i [] ≠ [] →
      ∃ a ∈ deterministicShuffle prims.hmacSha256
          (genKeyBytes prims m n c len it)
          (mapChars (genKeyBytes prims m n c len it) len),
        a ∈ ALLSETS.getD i [] := by
    intro i hi hne
    obtain ⟨a, ha, hcls⟩ :=
      mapChars_exists_mem (genKeyBytes prims m n c len it) len i hi hne
    exact ⟨a, hperm.mem_iff.mpr ha, hcls⟩
  exact ⟨cover 0 (by omega) (by decide), cover 1 (by omega) (by decide),
    cover 2 (by omega) (by decide), cover 3 (by omega) (by decide)⟩

/-- Witness for C2 at a concrete input. -/
theorem generatePassword_class_coverage_witness :
    ∃ s, generatePassword samplePrims "abc" 1
        ⟨some "ex", some 8, some 100000⟩ = .ok s ∧
      (∃ a ∈ s.data, a ∈ LOWER) ∧ (∃ a ∈ s.data, a ∈ UPPER) ∧
      (∃ a ∈ s.data, a ∈ DIGITS) ∧ (∃ a ∈ s.data, a ∈ SYMBOLS) :=
  generatePassword_class_coverage samplePrims "abc" 1 "ex" 8 100000
    (by decide) (by decide)

/-- C3.  Length invariant with validation boundary: for length ≥ 8 the
returned string has exactly `length` characters; length = 7 fails with
the ValidationError; length = 8 succeeds. -/
theorem generatePassword_length_invariant (prims : CryptoPrims)
    (m : String) (n : Int) (c : String) (len it : Nat) (h8 : 8 ≤ len)
    (hit : 100000 ≤ it) :
    (∃ s, generatePassword prims m n ⟨some c, some len, some it⟩ = .ok s ∧
        s.length = len) ∧
    (generatePassword prims m n ⟨some c, some 7, some it⟩ =
        .error (.validationError "length must be at least 8")) ∧
    (∃ s, generatePassword prims m n ⟨some c, some 8, some it⟩ = .ok s ∧
        s.length = 8) :=
  ⟨generatePassword_ok_length prims m n c len it h8 hit,
    generatePassword_len_error prims m n c 7 it (by omega) hit,
    generatePassword_ok_length prims m n c 8 it (by omega) hit⟩

/-- Witness for C3 at a concrete input. -/
theorem generatePassword_length_invariant_witness :
    (∃ s, generatePassword samplePrims "abc" 1
        ⟨some "ex", some 20, some 100000⟩ = .ok s ∧ s.length = 20) ∧
    (generatePassword samplePrims "abc" 1 ⟨some "ex", some 7, some 100000⟩ =
        .error (.validationError "length must be at least 8")) ∧
    (∃ s, generatePassword samplePrims "abc" 1
        ⟨some "ex", some 8, some 100000⟩ = .ok s ∧ s.length = 8) :=
  generatePassword_length_invariant samplePrims "abc" 1 "ex" 20 100000
    (by decide) (by decide)

/-- C10.  No maximum length: the core enforces no upper bound on
`length` — every length ≥ 8, including values above the presentation
slider maximum of 120, succeeds (given iterations ≥ 100000) and returns
a string of exactly `length` characters. -/
theorem generatePassword_no_max_length (prims : CryptoPrims) (m : String)
    (n : Int) (c : String) (len it : Nat) (h8 : 8 ≤ len)
    (hit : 100000 ≤ it) :
    ∃ s, generatePassword prims m n ⟨some c, some len, some it⟩ = .ok s ∧
      s.length = len :=
  generatePassword_ok_length prims m n c len it h8 hit

/-- Witness for C10 at length 121, one above the slider maximum. -/
theorem generatePassword_no_max_length_witness :
    ∃ s, generatePassword samplePrims "abc" 1
        ⟨some "ex", some 121, some 600000⟩ = .ok s ∧ s.length = 121 :=
  generatePassword_no_max_length samplePrims "abc" 1 "ex" 121 600000
    (by decide) (by decide)

theorem generatePassword_congr (prims : CryptoPrims) (m₁ m₂ : String)
    (n₁ n₂ : Int) (c₁ c₂ : String) (lenO itO : Option Nat)
    (hm : normText m₁ = normText m₂) (hc : normText c₁ = normText c₂)
    (hn : normText (toString n₁) = normText (toString n₂)) :
    generatePassword prims m₁ n₁ ⟨some c₁, lenO, itO⟩ =
      generatePassword prims m₂ n₂ ⟨some c₂, lenO, itO⟩ := by
  unfold generatePassword deterministicSalt pbkdf2
  simp only [Option.getD_some]
  rw [hm, hc, hn]

theorem generatePasswordTraced_fst (prims : CryptoPrims) (m : String)
    (n : Int) (opts : GenerateOptions) :
    (generatePasswordTraced prims m n opts).1 =
      generatePassword prims m n opts := by
  rcases opts with ⟨oc, ol, oi⟩
  by_cases h : oi.getD 600000 < 100000
  · simp only [generatePasswordTraced, generatePassword, if_pos h]
  · simp only [generatePasswordTraced, generatePassword, if_neg h]
    rcases mapBytesToPassword
        (pbkdf2 prims m (deterministicSalt prims (oc.getD "") n)
          (oi.getD 600000) (max 512 (ol.getD 20 * 16)))
        (ol.getD 20) with e | s <;> rfl

/-- C4.  Iteration floor: any iteration count below 100000 fails with
the ConfigurationError (whatever the other arguments); any count
≥ 100000 with a valid length succeeds, in particular the boundary value
100000; and an omitted iteration count defaults to 600000. -/
theorem generatePassword_iteration_floor (prims : CryptoPrims)
    (m : String) (n : Int) (c : String) (len it itLow : Nat)
    (h8 : 8 ≤ len) (hit : 100000 ≤ it) (hlow : itLow < 100000) :
    (generatePassword prims m n ⟨some c, some len, some itLow⟩ =
        .error (.configurationError "iterations must be >= 100,000")) ∧
    (∃ s, generatePassword prims m n ⟨some c, some len, some it⟩ = .ok s) ∧
    (∃ s, generatePassword prims m n ⟨some c, some len, some 100000⟩ =
        .ok s) ∧
    generatePassword prims m n ⟨some c, some len, none⟩ =
      generatePassword prims m n ⟨some c, some len, some 600000⟩ := by
  refine ⟨?_, ?_, ?_, rfl⟩
  · simp only [generatePassword, Option.getD_some, if_pos hlow]
  · obtain ⟨s, hs, _⟩ := generatePassword_ok_length prims m n c len it h8 hit
    exact ⟨s, hs⟩
  · obtain ⟨s, hs, _⟩ :=
      generatePassword_ok_length prims m n c len 100000 h8 (le_refl _)
    exact ⟨s, hs⟩

/-- Witness for C4 at a concrete input (the failing count is 50000, as
in the design's example). -/
theorem generatePassword_iteration_floor_witness :
    (generatePassword samplePrims "abc" 1 ⟨some "ex", some 16, some 50000⟩ =
        .error (.configurationError "iterations must be >= 100,000")) ∧
    (∃ s, generatePassword samplePrims "abc" 1
        ⟨some "ex", some 16, some 600000⟩ = .ok s) ∧
    (∃ s, generatePassword samplePrims "abc" 1
        ⟨some "ex", some 16, some 100000⟩ = .ok s) ∧
    generatePassword samplePrims "abc" 1 ⟨some "ex", some 16, none⟩ =
      generatePassword samplePrims "abc" 1 ⟨some "ex", some 16, some 600000⟩ :=
  generatePassword_iteration_floor samplePrims "abc" 1 "ex" 16 600000 50000
    (by decide) (by decide) (by decide)

/-- C5, counterexample: the four character classes concatenate to 89
symbols (26 + 26 + 10 + 27), not 92 — the symbol class has 27
characters, not 30. -/
theorem combined_alphabet_counterexample :
    COMBINED.length = 89 ∧ ¬ COMBINED.length = 92 ∧ SYMBOLS.length = 27 :=
  ⟨rfl, by decide, rfl⟩

/-- C5, amended: the combined alphabet has exactly 89 symbols
(26 + 26 + 10 + 27), and the mapper fills each position `4..length-1`
with the combined-alphabet character selected by the key byte reduced
modulo 89. -/
theorem combined_alphabet_amended (keyBytes : List Nat) (len i : Nat)
    (h8 : 8 ≤ len) (hi4 : 4 ≤ i) (hilen : i < len) :
    COMBINED.length = 89 ∧ LOWER.length = 26 ∧ UPPER.length = 26 ∧
    DIGITS.length = 10 ∧ SYMBOLS.length = 27 ∧
    ∃ s, mapBytesToPassword keyBytes len = .ok s ∧
      s.data[i]? =
        some (COMBINED.getD (bytesToInt (keyByteAt keyBytes i) % 89) ' ') := by
  refine ⟨rfl, rfl, rfl, rfl, rfl, (mapChars keyBytes len).asString, ?_, ?_⟩
  · simp only [mapBytesToPassword, if_neg (by omega : ¬ len < 8)]
  · rw [asString_data]
    unfold mapChars
    have hlenA : ((List.range ALLSETS.length).map (fun i =>
        let set := ALLSETS.getD i []
        set.getD (bytesToInt (keyByteAt keyBytes i) % set.length) ' ')).length
        = 4 := by
      simp [ALLSETS]
    rw [List.getElem?_append_right (by omega)]
    rw [hlenA, List.getElem?_map,
      List.getElem?_range' ALLSETS.length 1 (by simp [ALLSETS]; omega)]
    have h4 : ALLSETS.length + 1 * (i - 4) = i := by
      simp [ALLSETS]; omega
    rw [h4]
    rfl

/-- Witness for C5 (amended) at a concrete input. -/
theorem combined_alphabet_amended_witness :
    COMBINED.length = 89 ∧ LOWER.length = 26 ∧ UPPER.length = 26 ∧
    DIGITS.length = 10 ∧ SYMBOLS.length = 27 ∧
    ∃ s, mapBytesToPassword [5, 17, 200, 33, 77] 8 = .ok s ∧
      s.data[5]? = some (COMBINED.getD
        (bytesToInt (keyByteAt [5, 17, 200, 33, 77] 5) % 89) ' ') :=
  combined_alphabet_amended [5, 17, 200, 33, 77] 8 5 (by decide) (by decide)
    (by decide)

/-- C6, counterexample: the core accepts an empty master phrase, and a
whitespace-only one — both calls return a password instead of failing
with a ValidationError. -/
theorem empty_master_counterexample :
    (generatePassword samplePrims "" 1
      ⟨some "", some 12, some 100000⟩).isOk = true ∧
    (generatePassword samplePrims " " 1
      ⟨some "", some 12, some 100000⟩).isOk = true :=
  ⟨by decide, by decide⟩

/-- C6, amended: the core performs no master-phrase validation: a call
whose master phrase is empty (or trims to empty) succeeds for any valid
length and iteration count, returning a password of the requested
length, and a whitespace-only master phrase produces the same password
as the empty one (only the presentation layer refuses an empty input,
by disabling its button). -/
theorem empty_master_accepted (prims : CryptoPrims) (n : Int) (c : String)
    (len it : Nat) (h8 : 8 ≤ len) (hit : 100000 ≤ it) :
    (∃ s, generatePassword prims "" n ⟨some c, some len, some it⟩ = .ok s ∧
        s.length = len) ∧
    generatePassword prims " " n ⟨some c, some len, some it⟩ =
      generatePassword prims "" n ⟨some c, some len, some it⟩ :=
  ⟨generatePassword_ok_length prims "" n c len it h8 hit,
    generatePassword_congr prims " " "" n n c c (some len) (some it)
      (by decide) rfl rfl⟩

/-- Witness for C6 (amended) at a concrete input. -/
theorem empty_master_accepted_witness :
    (∃ s, generatePassword samplePrims "" 1
        ⟨some "ex", some 12, some 100000⟩ = .ok s ∧ s.length = 12) ∧
    generatePassword samplePrims " " 1 ⟨some "ex", some 12, some 100000⟩ =
      generatePassword samplePrims "" 1 ⟨some "ex", some 12, some 100000⟩ :=
  empty_master_accepted samplePrims 1 "ex" 12 100000 (by decide) (by decide)

/-- C7, counterexample: with an invalid length (7) and a valid iteration
count, the call does fail with the ValidationError, but only after the
salt-derivation and key-derivation stages have executed — the
executed-stage trace contains both. -/
theorem upfront_validation_counterexample :
    (generatePasswordTraced samplePrims "abc" 1
        ⟨some "ex", some 7, some 100000⟩).1 =
      .error (.validationError "length must be at least 8") ∧
    Stage.saltDerivation ∈ (generatePasswordTraced samplePrims "abc" 1
        ⟨some "ex", some 7, some 100000⟩).2 ∧
    Stage.keyDerivation ∈ (generatePasswordTraced samplePrims "abc" 1
        ⟨some "ex", some 7, some 100000⟩).2 :=
  ⟨rfl, by decide, by decide⟩

/-- C7, amended: the orchestrator validates `iterations ≥ 100000` up
front (an invalid count fails with the ConfigurationError before any
pipeline stage runs), but the `length ≥ 8` check lives inside the
mapper: an invalid length fails with the ValidationError only after the
salt computation and the key derivation have run. -/
theorem upfront_validation_amended (prims : CryptoPrims) (m : String)
    (n : Int) (c : String) (len it itLow : Nat)
    (opts : GenerateOptions) (hlen : len < 8) (hit : 100000 ≤ it)
    (hlow : itLow < 100000) :
    generatePasswordTraced prims m n ⟨some c, some len, some it⟩ =
      (.error (.validationError "length must be at least 8"),
        [.saltDerivation, .keyDerivation, .mapping]) ∧
    generatePasswordTraced prims m n ⟨some c, some len, some itLow⟩ =
      (.error (.configurationError "iterations must be >= 100,000"), []) ∧
    (generatePasswordTraced prims m n opts).1 =
      generatePassword prims m n opts := by
  refine ⟨?_, ?_, generatePasswordTraced_fst prims m n opts⟩
  · simp only [generatePasswordTraced, Option.getD_some,
      if_neg (by omega : ¬ it < 100000), mapBytesToPassword, if_pos hlen]
  · simp only [generatePasswordTraced, Option.getD_some, if_pos hlow]

/-- Witness for C7 (amended) at a concrete input. -/
theorem upfront_validation_amended_witness :
    generatePasswordTraced samplePrims "abc" 1
        ⟨some "ex", some 7, some 100000⟩ =
      (.error (.validationError "length must be at least 8"),
        [.saltDerivation, .keyDerivation, .mapping]) ∧
    generatePasswordTraced samplePrims "abc" 1
        ⟨some "ex", some 7, some 50000⟩ =
      (.error (.configurationError "iterations must be >= 100,000"), []) ∧
    (generatePasswordTraced samplePrims "abc" 1
        ⟨some "abc", some 16, some 600000⟩).1 =
      generatePassword samplePrims "abc" 1 ⟨some "abc", some 16, some 600000⟩ :=
  upfront_validation_amended samplePrims "abc" 1 "ex" 7 100000 50000
    ⟨some "abc", some 16, some 600000⟩ (by decide) (by decide) (by decide)

theorem jsTrimList_cons_ws (c : Char) (l : List Char)
    (h : isJsWhitespace c = true) : jsTrimList (c :: l) = jsTrimList l := by
  simp [jsTrimList, List.dropWhile_cons, h]

theorem jsTrimList_append_ws (c : Char) (l : List Char)
    (h : isJsWhitespace c = true) : jsTrimList (l ++ [c]) = jsTrimList l := by
  unfold jsTrimList
  rw [List.dropWhile_append]
  by_cases he : (l.dropWhile isJsWhitespace).isEmpty
  · rw [if_pos he]
    rw [List.isEmpty_iff] at he
    rw [he]
    simp [List.dropWhile_cons, h]
  · rw [if_neg he]
    simp [List.reverse_append, List.dropWhile_cons, h]

theorem normText_pad (s : String) :
    normText (" " ++ s ++ " ") = normText s := by
  have hspace : nfkcChar ' ' = [' '] := rfl
  have h1 : (" " ++ s ++ " ").data = ([' '] ++ s.data) ++ [' '] := by
    simp only [String.data_append]
  show jsTrim (nfkc (" " ++ s ++ " ")) = jsTrim (nfkc s)
  unfold jsTrim nfkc
  simp only [asString_data, h1, List.map_append, List.flatten_append,
    List.map_cons, List.flatten_cons, List.map_nil, List.flatten_nil,
    hspace, List.append_nil]
  rw [jsTrimList_append_ws ' ' _ (by decide), List.singleton_append,
    jsTrimList_cons_ws ' ' _ (by decide)]

/-- C8, counterexample: `normText` is not canonical composition plus
trim: on the compatibility ligature U+FB01 it returns "fi", while NFC
normalisation plus trim leaves the ligature unchanged. -/
theorem nfc_normalisation_counterexample :
    normText (String.mk [Char.ofNat 0xfb01]) = "fi" ∧
    jsTrim (nfc (String.mk [Char.ofNat 0xfb01])) =
      String.mk [Char.ofNat 0xfb01] ∧
    normText (String.mk [Char.ofNat 0xfb01]) ≠
      jsTrim (nfc (String.mk [Char.ofNat 0xfb01])) :=
  ⟨by decide, by decide, by decide⟩

/-- C8, amended: before use, the master phrase, the context and the
coerced rotation string are each normalised to Unicode COMPATIBILITY
composition form (NFKC, not NFC) and trimmed of surrounding white
space: `normText` is exactly trim-after-NFKC, the key deriver consumes
the so-normalised master phrase, and the salt deriver the so-normalised
context and rotation string. -/
theorem nfkc_normalisation_amended (prims : CryptoPrims)
    (s master c : String) (n : Int) (salt : List Nat) (it bits : Nat) :
    normText s = jsTrim (nfkc s) ∧
    pbkdf2 prims master salt it bits =
      prims.deriveBits (strBytes (jsTrim (nfkc master))) salt it bits ∧
    deterministicSalt prims c n =
      (prims.sha256 (strBytes ("pwgen-salt-v1" ++ "|" ++ jsTrim (nfkc c) ++
        "|" ++ jsTrim (nfkc (toString n))))).take 16 :=
  ⟨rfl, rfl, rfl⟩

/-- C9.  Normalisation equivalence: two calls whose master phrases,
contexts and rotation-number string forms are equal after NFKC
normalisation and trimming return the same password; in particular,
surrounding white space on the master phrase or the context does not
change the output. -/
theorem normalisation_equivalence (prims : CryptoPrims)
    (m₁ m₂ c₁ c₂ m c : String) (n₁ n₂ nr : Int) (lenO itO : Option Nat)
    (hm : jsTrim (nfkc m₁) = jsTrim (nfkc m₂))
    (hc : jsTrim (nfkc c₁) = jsTrim (nfkc c₂))
    (hn : jsTrim (nfkc (toString n₁)) = jsTrim (nfkc (toString n₂))) :
    generatePassword prims m₁ n₁ ⟨some c₁, lenO, itO⟩ =
      generatePassword prims m₂ n₂ ⟨some c₂, lenO, itO⟩ ∧
    generatePassword prims (" " ++ m ++ " ") nr
        ⟨some (" " ++ c ++ " "), lenO, itO⟩ =
      generatePassword prims m nr ⟨some c, lenO, itO⟩ :=
  ⟨generatePassword_congr prims m₁ m₂ n₁ n₂ c₁ c₂ lenO itO hm hc hn,
    generatePassword_congr prims (" " ++ m ++ " ") m nr nr
      (" " ++ c ++ " ") c lenO itO (normText_pad m) (normText_pad c) rfl⟩

/-- Witness for C9 at concrete inputs. -/
theorem normalisation_equivalence_witness :
    (generatePassword samplePrims "ab " 1 ⟨some "cx", some 10, some 100000⟩ =
      generatePassword samplePrims " ab" 1
        ⟨some "cx ", some 10, some 100000⟩) ∧
    generatePassword samplePrims (" " ++ "ab" ++ " ") 1
        ⟨some (" " ++ "cx" ++ " "), some 10, some 100000⟩ =
      generatePassword samplePrims "ab" 1 ⟨some "cx", some 10, some 100000⟩ :=
  normalisation_equivalence samplePrims "ab " " ab" "cx" "cx " "ab" "cx"
    1 1 1 (some 10) (some 100000) (by decide) (by decide) rfl

end Passw
